import Mathlib

/-!
Verification of the UCM_Core_ECM repository against its specification.

Shallow embedding conventions:
* Python floats are modelled as rationals (`ℚ`);
* Python dicts keyed by strings are modelled as association lists with
  insert-or-overwrite semantics (`dget` / `dset`);
* functions that can raise are modelled with `Option` / `Except`;
* wall-clock reads (`time.time()`) become explicit time parameters.
-/

/-- Association-list lookup, modelling Python `dict.get(k)`. -/
def dget {α : Type} : List (String × α) → String → Option α
  | [], _ => none
  | (k', v) :: t, k => if k' = k then some v else dget t k

/-- Association-list insert-or-overwrite, modelling Python `d[k] = v`
(insertion order preserved, an existing key keeps its position). -/
def dset {α : Type} : List (String × α) → String → α → List (String × α)
  | [], k, v => [(k, v)]
  | (k', v') :: t, k, v => if k' = k then (k, v) :: t else (k', v') :: dset t k v

/-- Python `max` over a non-empty list (returns 0 on `[]`, a case the code
never reaches because it is guarded by non-emptiness). -/
def maxList : List ℚ → ℚ
  | [] => 0
  | x :: xs => xs.foldl max x

/-- Mean of an attribute over the records, modelling `ECMRuntime.avg`:
`sum(getattr(c, attr) for c in cvvs) / len(cvvs)`. -/
def avgOf (l : List ℚ) : ℚ := l.sum / (l.length : ℚ)

/-! ## Canonical Verdict Vector (src/ecm_runtime.py, class CVV) -/

structure CVV where
  confidence : ℚ
  contradiction : ℚ
  entropy : ℚ
  coverage : ℚ
  falsified : Bool
  skg_id : String
deriving DecidableEq

/-- Python exception kinds raised by the runtime. -/
inductive PyErr where
  | valueError (msg : String)
  | runtimeError (msg : String)
deriving DecidableEq

/-- Model of `CVV.validate`: each scalar field must lie in [0,1], else `ValueError`. -/
def CVV.validate (c : CVV) : Except PyErr Unit :=
  if ¬ (0 ≤ c.confidence ∧ c.confidence ≤ 1) then
    .error (.valueError "CVV.confidence out of range")
  else if ¬ (0 ≤ c.contradiction ∧ c.contradiction ≤ 1) then
    .error (.valueError "CVV.contradiction out of range")
  else if ¬ (0 ≤ c.entropy ∧ c.entropy ≤ 1) then
    .error (.valueError "CVV.entropy out of range")
  else if ¬ (0 ≤ c.coverage ∧ c.coverage ≤ 1) then
    .error (.valueError "CVV.coverage out of range")
  else .ok ()

/-- The range condition `CVV.validate` checks, as a proposition. -/
def CVV.valid (c : CVV) : Prop :=
  (0 ≤ c.confidence ∧ c.confidence ≤ 1) ∧
  (0 ≤ c.contradiction ∧ c.contradiction ≤ 1) ∧
  (0 ≤ c.entropy ∧ c.entropy ≤ 1) ∧
  (0 ≤ c.coverage ∧ c.coverage ≤ 1)

instance (c : CVV) : Decidable c.valid := by
  unfold CVV.valid
  infer_instance

/-! ## ECM decision engine (src/ecm_runtime.py, ECMRuntime.decide) -/

inductive Status where
  | ACCEPT
  | REJECT
  | SUSPEND
  | CONDITIONAL
  | REINTERPRETED
deriving DecidableEq

/-- Advisory signal, modelling the `softmax_advisory` dict: absent keys are
`none` (the code reads them with `.get` and a default). -/
structure Advisory where
  reliability_tier : Option String
  epistemic_inevitability : Option ℚ
deriving DecidableEq

def anyFalsified (cvvs : List CVV) : Bool := cvvs.any (fun c => c.falsified)

def avgConfidence (cvvs : List CVV) : ℚ := avgOf (cvvs.map (fun c => c.confidence))
def avgContradiction (cvvs : List CVV) : ℚ := avgOf (cvvs.map (fun c => c.contradiction))
def avgEntropy (cvvs : List CVV) : ℚ := avgOf (cvvs.map (fun c => c.entropy))
def avgCoverage (cvvs : List CVV) : ℚ := avgOf (cvvs.map (fun c => c.coverage))

/-- Tail of `ECMRuntime.decide` from the redundant multi-record
contradiction check (line 151) to the default (line 186). -/
def decideMulti (cvvs : List CVV) (adv : Advisory) : Status × String :=
  if avgContradiction cvvs > 0.60 then
    (Status.SUSPEND, "High internal contradiction")
  else if adv.reliability_tier = some "D" ∧ avgEntropy cvvs > 0.70 then
    (Status.SUSPEND, "Byzantine + epistemic uncertainty")
  else if avgConfidence cvvs > 0.70 ∧ avgCoverage cvvs > 0.75 ∧
      adv.epistemic_inevitability.getD 0 > 0.75 then
    (Status.REINTERPRETED, "High confidence with divergence")
  else if cvvs.any (fun c => decide (c.confidence > 0.80)) = true ∧ avgCoverage cvvs > 0.60 then
    (Status.CONDITIONAL, "Single worldview dominant")
  else if avgConfidence cvvs > 0.70 ∧ avgContradiction cvvs < 0.15 ∧
      anyFalsified cvvs = false then
    (Status.ACCEPT, "Consensus achieved")
  else if avgConfidence cvvs < 0.50 ∨ avgCoverage cvvs < 0.40 then
    (Status.REJECT, "Insufficient confidence or coverage")
  else
    (Status.SUSPEND, "Ambiguous; human escalation required")

/-- Model of `ECMRuntime.decide`: the full ordered decision chain.  The returned pair
is (status, rationale); the informational aggregate stats, signatures and
timestamp carried by the Python verdict dict do not affect the status. -/
def ECMRuntime.decide (cvvs : List CVV) (adv : Advisory) : Status × String :=
  if cvvs.isEmpty then (Status.SUSPEND, "No CVVs provided")
  else if anyFalsified cvvs then (Status.REJECT, "Falsification detected")
  else if avgContradiction cvvs ≥ 0.60 ∨
      maxList (cvvs.map (fun c => c.contradiction)) ≥ 0.70 then
    (Status.SUSPEND, "high_epistemic_contradiction")
  else
    match cvvs with
    | [c] =>
      if c.confidence ≥ 0.85 ∧ c.contradiction < 0.30 ∧ c.falsified = false then
        (Status.CONDITIONAL, "single_strong_view")
      else
        (Status.SUSPEND, "insufficient_consensus_or_strength")
    | _ => decideMulti cvvs adv

/-! ## Invariant enforcement (src/ecm_runtime.py, enforce_invariants) -/

/-- Python `math.isclose(a, b, abs_tol=1e-6)` (the default relative
tolerance 1e-9 stays in force). -/
def isclose (a b : ℚ) : Prop :=
  |a - b| ≤ max (1e-9 * max |a| |b|) 1e-6

instance (a b : ℚ) : Decidable (isclose a b) := by
  unfold isclose
  infer_instance

/-- The per-record loop of `enforce_invariants`: validate, then reject a
falsified record that still carries positive confidence. -/
def enforceCVVs : List CVV → Except PyErr Unit
  | [] => .ok ()
  | c :: rest =>
    match c.validate with
    | .error e => .error e
    | .ok _ =>
      if c.falsified = true ∧ c.confidence > 0 then
        .error (.runtimeError "Invariant breach: falsified CVV has confidence > 0")
      else enforceCVVs rest

/-- Model of `enforce_invariants(cvvs, softmax_probs)`. -/
def enforce_invariants (cvvs : List CVV) (softmax_probs : List ℚ) : Except PyErr Unit :=
  if ¬ isclose softmax_probs.sum 1 then
    .error (.runtimeError "Invariant breach: softmax probabilities do not sum to 1")
  else enforceCVVs cvvs

/-! ## Mini-SKG executor (src/vault_logic_system/engine/mini_skg_executor.py) -/

/-- Python `str.lower()` (ASCII, which is all the indicator matching uses). -/
def strLower (s : String) : String := String.mk (s.data.map Char.toLower)

/-- Holds when `pat` occurs at the head of `l`. -/
def leadsWith : List Char → List Char → Bool
  | [], _ => true
  | _ :: _, [] => false
  | a :: as, b :: bs => a == b && leadsWith as bs

/-- Holds when `pat` occurs somewhere in `l` (Python `pat in s` on strings). -/
def hasSeg (pat : List Char) : List Char → Bool
  | [] => pat.isEmpty
  | c :: t => leadsWith pat (c :: t) || hasSeg pat t

/-- Python substring test `pat in s`. -/
def strContains (s pat : String) : Bool := hasSeg pat.data s.data

/-- One node of a seed rule set.  Python represents nodes as dicts whose
keys may be absent; absent keys are `none`.  `certainty` models
`node.get("value", dict()).get("certainty", ...)`: `none` when either the
"value" dict or its "certainty" key is missing. -/
structure SeedNode where
  id : Option String
  term : Option String
  typ : Option String
  definition : Option String
  certainty : Option ℚ
deriving DecidableEq

/-- A seed rule set (`seed_json`): `initial_confidence` key plus "entries". -/
structure Seed where
  initial_confidence : Option ℚ
  entries : List SeedNode
deriving DecidableEq

/-- The dict `_execute_node` returns.  The bookkeeping entries
(`evaluation_notes`, `evaluation_context`, `params_used`) carry no metric
content and are omitted. -/
structure NodeResult where
  node_id : String
  term : String
  typ : String
  confidence_delta : ℚ
  contradiction_detected : Bool
deriving DecidableEq

/-- The `MiniSKGResult` dataclass. -/
structure MiniSKGResult where
  confidence_score : ℚ
  rule_results : List (String × NodeResult)
  contradiction_flags : List String
deriving DecidableEq

/-- The fixed phrase set of `_detect_contradiction`. -/
def contradiction_indicators : List String :=
  ["contradiction", "paradox", "inconsistent", "mutually exclusive",
   "cannot be both", "impossible", "false premise", "invalid conclusion"]

/-- Model of `_detect_contradiction(term, definition, context)`. -/
def detect_contradiction (term definition context : String) : Bool :=
  let content := strLower (term ++ " " ++ definition ++ " " ++ context)
  contradiction_indicators.any (fun ind => strContains content ind)

/-- Model of `_evaluate_inference_rule`: certainty-weighted boost graded by rule kind. -/
def evaluate_inference_rule (node : SeedNode) : ℚ :=
  let term := strLower (node.term.getD "")
  let certainty := node.certainty.getD 0.8
  if strContains term "modus_ponens" then certainty * 0.15
  else if strContains term "modus_tollens" then certainty * 0.12
  else if strContains term "syllogism" then certainty * 0.10
  else certainty * 0.08

/-- Model of `_evaluate_method`: fixed boost graded by method kind. -/
def evaluate_method (node : SeedNode) : ℚ :=
  let term := strLower (node.term.getD "")
  let definition := node.definition.getD ""
  if strContains term "deductive" then 0.12
  else if strContains term "inductive" then 0.08
  else if strContains (strLower definition) "logical" then 0.10
  else 0.06

/-- Model of `_evaluate_concept`: base boost plus contextual-relevance boost. -/
def evaluate_concept (node : SeedNode) (context : String) : ℚ :=
  let term := strLower (node.term.getD "")
  if strContains (strLower context) term then 0.05 + 0.05 else 0.05

/-- Model of `_execute_node(node, params, context)`: every field is read with a
default, so a malformed node still yields a result.  All three typed
evaluators return `contradiction_detected = False`; only the
content-based detector can set it. -/
def execute_node (node : SeedNode) (context : String) : NodeResult :=
  let node_id := node.id.getD ""
  let term := node.term.getD ""
  let typ := node.typ.getD ""
  let definition := node.definition.getD ""
  let base_delta : ℚ :=
    if typ = "inference_rule" then evaluate_inference_rule node
    else if typ = "method" then evaluate_method node
    else if typ = "concept" then evaluate_concept node context
    else 0.05
  if detect_contradiction term definition context then
    { node_id := node_id, term := term, typ := typ,
      confidence_delta := max (base_delta - 0.3) (-0.5),
      contradiction_detected := true }
  else
    { node_id := node_id, term := term, typ := typ,
      confidence_delta := base_delta,
      contradiction_detected := false }

/-- The executor's mutable per-traversal state (reset at the top of every
`MiniSKGExecutor.traverse` call). -/
structure ExecState where
  traversal_depth : ℕ
  rule_results : List (String × NodeResult)
  contradiction_flags : List String
  confidence_accumulator : ℚ
deriving DecidableEq

def ExecState.init : ExecState := ⟨0, [], [], 0⟩

/-- The node loop of `MiniSKGExecutor.traverse`.  `none` models the `KeyError` raised at
`self.rule_results[node["id"]]` when a node dict has no "id" key (the
subscript access, unlike the `.get` calls in `_execute_node`, has no
default). -/
def traverseGo (context : String) : List SeedNode → ExecState → Option ExecState
  | [], st => some st
  | node :: rest, st =>
    match node.id with
    | none => none
    | some nid =>
      let r := execute_node node context
      traverseGo context rest
        { traversal_depth := st.traversal_depth + 1,
          rule_results := dset st.rule_results nid r,
          contradiction_flags :=
            if r.contradiction_detected then st.contradiction_flags ++ [nid]
            else st.contradiction_flags,
          confidence_accumulator := st.confidence_accumulator + r.confidence_delta }

/-- Model of `MiniSKGExecutor.traverse(params, context)`.  The executor object's
mutable state `st` is passed explicitly; `MiniSKGExecutor.traverse` overwrites all of it
before reading anything, which is why `st` never influences the result.
Only the first 5 entries are executed (`concept_nodes[:5]`; the
`traversal_depth >= 5` break can then never fire). -/
def MiniSKGExecutor.traverse (seed : Seed) (context : String) (st : ExecState) :
    Option (ExecState × MiniSKGResult) :=
  match traverseGo context (seed.entries.take 5) ExecState.init with
  | none => none
  | some st' =>
    let raw := seed.initial_confidence.getD 0.5 + st'.confidence_accumulator
    some (st', { confidence_score := max 0 (min 1 raw),
                 rule_results := st'.rule_results,
                 contradiction_flags := st'.contradiction_flags })

/-- Spec-following expression for the confidence total: the declared
baseline (default 0.5) plus the sum of the per-node confidence deltas of
the executed (first ≤5) nodes. -/
def sumDeltas (seed : Seed) (context : String) : ℚ :=
  ((seed.entries.take 5).map (fun n => (execute_node n context).confidence_delta)).sum

/-! ## Shadow propagator (src/vault_logic_system/engine/shadow_propagator.py) -/

inductive ShadowTrigger where
  | HIGH_CONTRADICTION
  | CONFIDENCE_DELTA
  | ENTROPY_SPIKE
deriving DecidableEq

/-- The `trigger_conditions` dict: absent keys are `none`, the code reads
them with `.get` and the documented defaults. -/
structure TriggerConditions where
  contradiction_threshold : Option ℚ
  confidence_delta_threshold : Option ℚ
  entropy_spike_threshold : Option ℚ
deriving DecidableEq

/-- Model of `_calculate_entropy_marker`: variance of the per-node confidence deltas,
scaled by 10 and capped at 1.  (`result.get('confidence_delta', 0.0)`:
the key is always present in `_execute_node` results.) -/
def calculate_entropy_marker (r : MiniSKGResult) : ℚ :=
  match r.rule_results with
  | [] => 0
  | _ =>
    let deltas := r.rule_results.map (fun p => p.2.confidence_delta)
    let mean := deltas.sum / (deltas.length : ℚ)
    let variance := (deltas.map (fun d => (d - mean) ^ 2)).sum / (deltas.length : ℚ)
    min 1 (variance * 10)

/-- Model of `_evaluate_triggers`: fixed-priority trigger evaluation.  Note the
contradiction comparison is STRICT (`len(...) > threshold`). -/
def evaluate_triggers (r : MiniSKGResult) (tc : TriggerConditions) : Option ShadowTrigger :=
  if (r.contradiction_flags.length : ℚ) > tc.contradiction_threshold.getD 0 then
    some ShadowTrigger.HIGH_CONTRADICTION
  else if r.confidence_score ≥ tc.confidence_delta_threshold.getD 0.2 then
    some ShadowTrigger.CONFIDENCE_DELTA
  else if calculate_entropy_marker r ≥ tc.entropy_spike_threshold.getD 0.8 then
    some ShadowTrigger.ENTROPY_SPIKE
  else none

/-- Modelled from the spec sentence of claim C6, word for word: the
contradiction comparison is NON-strict ("contradiction-flag count ≥
configured threshold"); everything else as in the code. -/
def triggersClaimed (r : MiniSKGResult) (tc : TriggerConditions) : Option ShadowTrigger :=
  if (r.contradiction_flags.length : ℚ) ≥ tc.contradiction_threshold.getD 0 then
    some ShadowTrigger.HIGH_CONTRADICTION
  else if r.confidence_score ≥ tc.confidence_delta_threshold.getD 0.2 then
    some ShadowTrigger.CONFIDENCE_DELTA
  else if calculate_entropy_marker r ≥ tc.entropy_spike_threshold.getD 0.8 then
    some ShadowTrigger.ENTROPY_SPIKE
  else none

/-- Modelled from the amended claim: as `triggersClaimed` but with the
contradiction comparison strict, matching the code. -/
def triggersAmended (r : MiniSKGResult) (tc : TriggerConditions) : Option ShadowTrigger :=
  if (r.contradiction_flags.length : ℚ) > tc.contradiction_threshold.getD 0 then
    some ShadowTrigger.HIGH_CONTRADICTION
  else if r.confidence_score ≥ tc.confidence_delta_threshold.getD 0.2 then
    some ShadowTrigger.CONFIDENCE_DELTA
  else if calculate_entropy_marker r ≥ tc.entropy_spike_threshold.getD 0.8 then
    some ShadowTrigger.ENTROPY_SPIKE
  else none

/-- The `ShadowArtifact` dataclass.  `shadow_id` and `skg_hash` hold truncated
SHA3-256 digests in the code; both are write-only metadata (nothing reads
them), modelled here by the pre-hash content strings. -/
structure ShadowArtifact where
  shadow_id : String
  skg_origin : String
  timestamp_ms : ℤ
  node_location : String
  evaluation_target : String
  trigger_type : ShadowTrigger
  confidence_delta : ℚ
  contradiction_flag : Bool
  entropy_marker : ℚ
  skg_hash : String
  invocation_count : ℕ
  ttl_ms : ℤ
deriving DecidableEq

/-- Model of `ShadowArtifact.is_expired(current_time)`. -/
def ShadowArtifact.expired (s : ShadowArtifact) (current : ℤ) : Bool :=
  decide (current - s.timestamp_ms > s.ttl_ms)

/-- Model of `ShadowArtifact.get_adjustment_delta`: per-trigger base delta, then a
per-shadow clamp to [-0.25, 0.25]. -/
def ShadowArtifact.get_adjustment_delta (s : ShadowArtifact) : ℚ :=
  let base_delta : ℚ :=
    match s.trigger_type with
    | ShadowTrigger.HIGH_CONTRADICTION => if s.contradiction_flag then -0.15 else 0
    | ShadowTrigger.CONFIDENCE_DELTA => min (s.confidence_delta * 0.3) 0.10
    | ShadowTrigger.ENTROPY_SPIKE => -(min (s.entropy_marker * 0.2) 0.08)
  max (-0.25) (min 0.25 base_delta)

/-- The `ShadowPropagator` instance state. -/
structure ShadowPropagator where
  active_skg : Option String
  active_shadows : List (String × List ShadowArtifact)
  node_adjustment_counts : List (String × ℕ)
  node_cumulative_deltas : List (String × ℚ)
deriving DecidableEq

def ShadowPropagator.init : ShadowPropagator := ⟨none, [], [], []⟩

/-- Model of `ShadowPropagator.emit_shadow(...)`; `now_ms` is the wall clock read.
Returns the updated propagator and the emitted artifact, if any. -/
def emit_shadow (p : ShadowPropagator) (skg_origin node_location evaluation_target : String)
    (r : MiniSKGResult) (tc : TriggerConditions) (now_ms : ℤ) :
    ShadowPropagator × Option ShadowArtifact :=
  match evaluate_triggers r tc with
  | none => (p, none)
  | some trigger_type =>
    let shadow : ShadowArtifact :=
      { shadow_id := skg_origin ++ node_location,
        skg_origin := skg_origin,
        timestamp_ms := now_ms,
        node_location := node_location,
        evaluation_target := evaluation_target,
        trigger_type := trigger_type,
        confidence_delta := r.confidence_score,
        contradiction_flag := decide (r.contradiction_flags.length > 0),
        entropy_marker := calculate_entropy_marker r,
        skg_hash := skg_origin,
        invocation_count := r.rule_results.length,
        ttl_ms := 5000 }
    let target_key := evaluation_target ++ "_" ++ node_location
    let cur := (dget p.active_shadows target_key).getD []
    ({ p with active_shadows := dset p.active_shadows target_key (cur ++ [shadow]) },
     some shadow)

/-- The metrics dict handed to `apply_shadows_to_metrics`: the code only
ever touches the keys "confidence", "entropy" and "contradiction", each of
which may be absent; all other keys pass through untouched. -/
structure Metrics where
  confidence : Option ℚ
  entropy : Option ℚ
  contradiction : Option ℚ
deriving DecidableEq

/-- Adjust one optional metric by `d` and re-clamp it to [0,1]. -/
def adjMetric (v : Option ℚ) (d : ℚ) : Option ℚ :=
  v.map (fun x => max 0 (min 1 (x + d)))

/-- Model of `ShadowPropagator.apply_shadows_to_metrics(target_skg, node_location,
base_metrics)`; `now_ms` is the wall clock read.  Returns the updated
propagator and the adjusted metrics. -/
def apply_shadows_to_metrics (p : ShadowPropagator) (target_skg node_location : String)
    (base_metrics : Metrics) (now_ms : ℤ) : ShadowPropagator × Metrics :=
  let target_key := target_skg ++ "_" ++ node_location
  match dget p.active_shadows target_key with
  | none => (p, base_metrics)
  | some shadows =>
    let active := shadows.filter (fun s => !(s.expired now_ms))
    let p1 := { p with active_shadows := dset p.active_shadows target_key active }
    if active.isEmpty then (p1, base_metrics)
    else
      let current_count := (dget p1.node_adjustment_counts target_key).getD 0
      let current_cumulative := (dget p1.node_cumulative_deltas target_key).getD 0
      if current_count ≥ 3 then (p1, base_metrics)
      else
        let applied := active.filter (fun s => s.skg_origin != target_skg)
        let total := max (-0.25) (min 0.25
          ((applied.map (fun s => s.get_adjustment_delta)).sum))
        let p2 := { p1 with
          node_adjustment_counts :=
            dset p1.node_adjustment_counts target_key (current_count + applied.length),
          node_cumulative_deltas :=
            dset p1.node_cumulative_deltas target_key (current_cumulative + total) }
        (p2, { confidence := adjMetric base_metrics.confidence total,
               entropy := adjMetric base_metrics.entropy (-total * 0.5),
               contradiction := adjMetric base_metrics.contradiction (total * 0.3) })

/-- One observable mutation of the propagator within a deliberation
session: an `emit_shadow` call or an `apply_shadows_to_metrics` call, with
arbitrary arguments and clock reading. -/
inductive PropStep : ShadowPropagator → ShadowPropagator → Prop where
  | emitStep (p : ShadowPropagator) (o l t : String) (r : MiniSKGResult)
      (tc : TriggerConditions) (now : ℤ) :
      PropStep p (emit_shadow p o l t r tc now).1
  | applyStep (p : ShadowPropagator) (t l : String) (base : Metrics) (now : ℤ) :
      PropStep p (apply_shadows_to_metrics p t l base now).1

/-- Propagator states reachable during one deliberation session. -/
inductive PropReachable : ShadowPropagator → Prop where
  | init : PropReachable ShadowPropagator.init
  | step {p q : ShadowPropagator} : PropReachable p → PropStep p q → PropReachable q

/-! ## Helper lemmas -/

theorem foldl_max_init_le (l : List ℚ) (a : ℚ) : a ≤ l.foldl max a := by
  induction l generalizing a with
  | nil => exact le_refl a
  | cons x t ih => exact le_trans (le_max_left a x) (ih (max a x))

theorem mem_le_foldl_max (l : List ℚ) (a x : ℚ) (hx : x ∈ l) : x ≤ l.foldl max a := by
  induction l generalizing a with
  | nil => cases hx
  | cons y t ih =>
    rcases List.mem_cons.mp hx with h | h
    · subst h
      exact le_trans (le_max_right a x) (foldl_max_init_le t (max a x))
    · exact ih (max a y) h

theorem le_maxList {l : List ℚ} {x : ℚ} (hx : x ∈ l) : x ≤ maxList l := by
  cases l with
  | nil => cases hx
  | cons a t =>
    rcases List.mem_cons.mp hx with h | h
    · subst h
      exact foldl_max_init_le t x
    · exact mem_le_foldl_max t a x h

theorem avgOf_single (x : ℚ) : avgOf [x] = x := by
  simp [avgOf]

theorem CVV.validate_ok_of_valid (c : CVV) (h : c.valid) : c.validate = .ok () := by
  obtain ⟨h1, h2, h3, h4⟩ := h
  simp [CVV.validate, h1, h2, h3, h4]

theorem decide_rejects_falsified (cvvs : List CVV) (adv : Advisory)
    (hne : cvvs ≠ []) (hfal : anyFalsified cvvs = true) :
    ECMRuntime.decide cvvs adv = (Status.REJECT, "Falsification detected") := by
  cases cvvs with
  | nil => exact absurd rfl hne
  | cons c t => simp [ECMRuntime.decide, hfal]

/-! ## Claim theorems -/

/-- C2: Falsification veto: for every non-empty list of validated verdict
records, if any record is falsified then `decide` returns status REJECT,
regardless of every other field and of the advisory. -/
theorem C2_falsification_veto (cvvs : List CVV) (adv : Advisory)
    (hne : cvvs ≠ []) (hval : ∀ c ∈ cvvs, c.valid)
    (hfal : ∃ c ∈ cvvs, c.falsified = true) :
    (ECMRuntime.decide cvvs adv).1 = Status.REJECT := by
  have hany : anyFalsified cvvs = true := by
    rcases hfal with ⟨c, hc, hf⟩
    simp only [anyFalsified, List.any_eq_true]
    exact ⟨c, hc, hf⟩
  rw [decide_rejects_falsified cvvs adv hne hany]

theorem C2_witness :
    ([(⟨0.9, 0.1, 0.2, 0.9, true, "agent1"⟩ : CVV)] ≠ [] ∧
      (∀ c ∈ [(⟨0.9, 0.1, 0.2, 0.9, true, "agent1"⟩ : CVV)], c.valid)) ∧
    (ECMRuntime.decide [⟨0.9, 0.1, 0.2, 0.9, true, "agent1"⟩] ⟨some "A", some 0.5⟩).1 =
      Status.REJECT :=
  ⟨⟨List.cons_ne_nil _ _, by norm_num [List.forall_mem_cons, CVV.valid]⟩,
   C2_falsification_veto _ _ (List.cons_ne_nil _ _)
     (by norm_num [List.forall_mem_cons, CVV.valid])
     ⟨⟨0.9, 0.1, 0.2, 0.9, true, "agent1"⟩, by simp, rfl⟩⟩

/-- C4: Contradiction dominance: for every non-empty list of validated
records none of which is falsified, a mean contradiction ≥ 0.60 or any
single contradiction ≥ 0.70 makes `decide` return SUSPEND. -/
theorem C4_contradiction_dominance (cvvs : List CVV) (adv : Advisory)
    (hne : cvvs ≠ []) (hval : ∀ c ∈ cvvs, c.valid)
    (hnf : ∀ c ∈ cvvs, c.falsified = false)
    (hdom : avgContradiction cvvs ≥ 0.60 ∨ ∃ c ∈ cvvs, c.contradiction ≥ 0.70) :
    (ECMRuntime.decide cvvs adv).1 = Status.SUSPEND := by
  have hany : anyFalsified cvvs = false := by
    simp only [anyFalsified, List.any_eq_false]
    intro c hc
    simp [hnf c hc]
  have hcond : avgContradiction cvvs ≥ 0.60 ∨
      maxList (cvvs.map (fun c => c.contradiction)) ≥ 0.70 := by
    rcases hdom with h | ⟨c, hc, hge⟩
    · exact Or.inl h
    · exact Or.inr (le_trans hge (le_maxList (List.mem_map_of_mem _ hc)))
  cases cvvs with
  | nil => exact absurd rfl hne
  | cons c t =>
    have hcond' : (0.60 : ℚ) ≤ avgContradiction (c :: t) ∨
        (0.70 : ℚ) ≤ maxList (c.contradiction :: List.map (fun x => x.contradiction) t) := by
      simpa using hcond
    simp [ECMRuntime.decide, hany, hcond']

theorem C4_witness :
    ((∀ c ∈ [(⟨0.9, 0.75, 0.2, 0.9, false, "a"⟩ : CVV), ⟨0.9, 0.1, 0.2, 0.9, false, "b"⟩], c.valid) ∧
      (∃ c ∈ [(⟨0.9, 0.75, 0.2, 0.9, false, "a"⟩ : CVV), ⟨0.9, 0.1, 0.2, 0.9, false, "b"⟩],
        c.contradiction ≥ 0.70)) ∧
    (ECMRuntime.decide
      [⟨0.9, 0.75, 0.2, 0.9, false, "a"⟩, ⟨0.9, 0.1, 0.2, 0.9, false, "b"⟩]
      ⟨none, none⟩).1 = Status.SUSPEND :=
  ⟨⟨by norm_num [List.forall_mem_cons, CVV.valid],
    ⟨⟨0.9, 0.75, 0.2, 0.9, false, "a"⟩, by simp, by norm_num⟩⟩,
   C4_contradiction_dominance _ _ (List.cons_ne_nil _ _)
     (by norm_num [List.forall_mem_cons, CVV.valid])
     (by norm_num [List.forall_mem_cons])
     (Or.inr ⟨⟨0.9, 0.75, 0.2, 0.9, false, "a"⟩, by simp, by norm_num⟩)⟩

theorem decide_single (c : CVV) (adv : Advisory) :
    ECMRuntime.decide [c] adv =
      if c.falsified then (Status.REJECT, "Falsification detected")
      else if (0.60 : ℚ) ≤ c.contradiction ∨ (0.70 : ℚ) ≤ c.contradiction then
        (Status.SUSPEND, "high_epistemic_contradiction")
      else if (0.85 : ℚ) ≤ c.confidence ∧ c.contradiction < 0.30 ∧ c.falsified = false then
        (Status.CONDITIONAL, "single_strong_view")
      else (Status.SUSPEND, "insufficient_consensus_or_strength") := by
  simp [ECMRuntime.decide, anyFalsified, avgContradiction, avgOf, maxList]

/-- C5: Single-record dichotomy: a singleton record list never yields
ACCEPT or REINTERPRETED; and when the record is not falsified and below
the contradiction-dominance thresholds, `decide` returns CONDITIONAL iff
confidence ≥ 0.85 and contradiction < 0.30, and SUSPEND otherwise. -/
theorem C5_single_record_dichotomy (c : CVV) (adv : Advisory) (hval : c.valid) :
    ((ECMRuntime.decide [c] adv).1 ≠ Status.ACCEPT ∧
     (ECMRuntime.decide [c] adv).1 ≠ Status.REINTERPRETED) ∧
    (c.falsified = false → c.contradiction < 0.60 →
      (((ECMRuntime.decide [c] adv).1 = Status.CONDITIONAL) ↔
        ((0.85 : ℚ) ≤ c.confidence ∧ c.contradiction < 0.30)) ∧
      ((ECMRuntime.decide [c] adv).1 = Status.CONDITIONAL ∨
       (ECMRuntime.decide [c] adv).1 = Status.SUSPEND)) := by
  rw [decide_single]
  split_ifs with h1 h2 h3
  · simp [h1]
  · exact ⟨⟨by simp, by simp⟩,
      fun hf' hcon => absurd hcon (by rcases h2 with h | h <;> [linarith; linarith])⟩
  · exact ⟨⟨by simp, by simp⟩,
      fun _ _ => ⟨⟨fun _ => ⟨h3.1, h3.2.1⟩, fun _ => rfl⟩, Or.inl rfl⟩⟩
  · refine ⟨⟨by simp, by simp⟩, fun hf' hcon => ⟨⟨fun h => absurd h (by simp), ?_⟩, Or.inr rfl⟩⟩
    intro hrhs
    exact absurd ⟨hrhs.1, hrhs.2, hf'⟩ h3

theorem C5_witness :
    ((ECMRuntime.decide [(⟨0.9, 0.05, 0.2, 0.9, false, "a"⟩ : CVV)] ⟨none, none⟩).1 ≠
        Status.ACCEPT ∧
     (ECMRuntime.decide [(⟨0.9, 0.05, 0.2, 0.9, false, "a"⟩ : CVV)] ⟨none, none⟩).1 ≠
        Status.REINTERPRETED) ∧
    ((⟨0.9, 0.05, 0.2, 0.9, false, "a"⟩ : CVV).falsified = false →
      (⟨0.9, 0.05, 0.2, 0.9, false, "a"⟩ : CVV).contradiction < 0.60 →
      (((ECMRuntime.decide [(⟨0.9, 0.05, 0.2, 0.9, false, "a"⟩ : CVV)] ⟨none, none⟩).1 =
          Status.CONDITIONAL) ↔
        ((0.85 : ℚ) ≤ (⟨0.9, 0.05, 0.2, 0.9, false, "a"⟩ : CVV).confidence ∧
          (⟨0.9, 0.05, 0.2, 0.9, false, "a"⟩ : CVV).contradiction < 0.30)) ∧
      ((ECMRuntime.decide [(⟨0.9, 0.05, 0.2, 0.9, false, "a"⟩ : CVV)] ⟨none, none⟩).1 =
          Status.CONDITIONAL ∨
       (ECMRuntime.decide [(⟨0.9, 0.05, 0.2, 0.9, false, "a"⟩ : CVV)] ⟨none, none⟩).1 =
          Status.SUSPEND)) :=
  C5_single_record_dichotomy ⟨0.9, 0.05, 0.2, 0.9, false, "a"⟩ ⟨none, none⟩
    (by norm_num [CVV.valid])

theorem enforceCVVs_raises (l : List CVV) (hval : ∀ x ∈ l, x.valid) (c : CVV)
    (hc : c ∈ l) (hf : c.falsified = true) (hconf : c.confidence > 0) :
    ∃ msg, enforceCVVs l = .error (.runtimeError msg) := by
  induction l with
  | nil => cases hc
  | cons a t ih =>
    have hav : a.valid := hval a (List.mem_cons_self a t)
    by_cases hcond : a.falsified = true ∧ a.confidence > 0
    · exact ⟨"Invariant breach: falsified CVV has confidence > 0",
        by simp [enforceCVVs, CVV.validate_ok_of_valid a hav, hcond]⟩
    · have hct : c ∈ t := by
        rcases List.mem_cons.mp hc with h | h
        · exact absurd ⟨h ▸ hf, h ▸ hconf⟩ hcond
        · exact h
      obtain ⟨msg, hmsg⟩ := ih (fun x hx => hval x (List.mem_cons_of_mem a hx)) hct
      exact ⟨msg, by simp [enforceCVVs, CVV.validate_ok_of_valid a hav, hcond, hmsg]⟩

/-- C10: a record with `falsified = true` and positive confidence passes
per-field range validation and is answered by `decide` with the REJECT
veto, yet `enforce_invariants` raises a `RuntimeError` on any input
containing it. -/
theorem C10_enforce_falsified_confidence (cvvs : List CVV) (probs : List ℚ)
    (adv : Advisory) (c : CVV) (hc : c ∈ cvvs) (hval : ∀ x ∈ cvvs, x.valid)
    (hf : c.falsified = true) (hconf : c.confidence > 0) :
    c.validate = .ok () ∧
    (∃ msg, enforce_invariants cvvs probs = .error (.runtimeError msg)) ∧
    (ECMRuntime.decide cvvs adv).1 = Status.REJECT := by
  refine ⟨CVV.validate_ok_of_valid c (hval c hc), ?_, ?_⟩
  · by_cases hcl : isclose probs.sum 1
    · obtain ⟨msg, hmsg⟩ := enforceCVVs_raises cvvs hval c hc hf hconf
      exact ⟨msg, by simp [enforce_invariants, hcl, hmsg]⟩
    · exact ⟨"Invariant breach: softmax probabilities do not sum to 1",
        by simp [enforce_invariants, hcl]⟩
  · have hne : cvvs ≠ [] := by
      intro h
      subst h
      cases hc
    have hany : anyFalsified cvvs = true := by
      simp only [anyFalsified, List.any_eq_true]
      exact ⟨c, hc, hf⟩
    rw [decide_rejects_falsified cvvs adv hne hany]

theorem C10_witness :
    (⟨0.7, 0.1, 0.2, 0.9, true, "w"⟩ : CVV).validate = .ok () ∧
    (∃ msg, enforce_invariants [(⟨0.7, 0.1, 0.2, 0.9, true, "w"⟩ : CVV)] [1] =
      .error (.runtimeError msg)) ∧
    (ECMRuntime.decide [(⟨0.7, 0.1, 0.2, 0.9, true, "w"⟩ : CVV)] ⟨none, none⟩).1 =
      Status.REJECT :=
  C10_enforce_falsified_confidence _ [1] ⟨none, none⟩ ⟨0.7, 0.1, 0.2, 0.9, true, "w"⟩
    (by simp) (by norm_num [List.forall_mem_cons, CVV.valid]) rfl (by norm_num)

/-- C6 counterexample: with zero contradiction flags, confidence 0 and the
default thresholds, the claimed rule (count ≥ threshold, default 0) would
emit HIGH_CONTRADICTION, but `_evaluate_triggers` (strict `>`) emits
nothing. -/
theorem C6_counterexample :
    evaluate_triggers ⟨0, [], []⟩ ⟨none, none, none⟩ = none ∧
    triggersClaimed ⟨0, [], []⟩ ⟨none, none, none⟩ = some ShadowTrigger.HIGH_CONTRADICTION ∧
    evaluate_triggers ⟨0, [], []⟩ ⟨none, none, none⟩ ≠
      triggersClaimed ⟨0, [], []⟩ ⟨none, none, none⟩ := by
  refine ⟨?_, ?_, ?_⟩
  · norm_num [evaluate_triggers, calculate_entropy_marker]
  · norm_num [triggersClaimed, calculate_entropy_marker]
  · norm_num [evaluate_triggers, triggersClaimed, calculate_entropy_marker]
    simp

/-- C6 (amended): trigger priority in `emit_shadow` holds with the first
comparison STRICT: HIGH_CONTRADICTION when the contradiction-flag count
exceeds the configured threshold (default 0); otherwise CONFIDENCE_DELTA
when the capped confidence score is ≥ the configured threshold (default
0.2); otherwise ENTROPY_SPIKE when the entropy marker is ≥ the configured
threshold (default 0.8); otherwise no artifact. -/
theorem C6_trigger_priority_amended (r : MiniSKGResult) (tc : TriggerConditions) :
    evaluate_triggers r tc = triggersAmended r tc := rfl

/-- C7: evaluating `MiniSKGExecutor.traverse` at the failing input.  A node dict missing
the "id" key raises `KeyError` at `self.rule_results[node["id"]]`
(modelled by `none`), even though `_execute_node` itself defaults every
missing field; the same node with an "id" key (all other fields still
missing) produces a result. -/
theorem C7_missing_id_raises :
    MiniSKGExecutor.traverse ⟨none, [⟨none, none, none, none, none⟩]⟩ "ctx" ExecState.init = none ∧
    (MiniSKGExecutor.traverse ⟨none, [⟨some "n1", none, none, none, none⟩]⟩ "ctx" ExecState.init).isSome
      = true :=
  ⟨rfl, rfl⟩

theorem traverseGo_accum (context : String) (l : List SeedNode) (st st' : ExecState)
    (h : traverseGo context l st = some st') :
    st'.confidence_accumulator = st.confidence_accumulator +
      (l.map (fun n => (execute_node n context).confidence_delta)).sum := by
  induction l generalizing st with
  | nil =>
    simp only [traverseGo, Option.some.injEq] at h
    subst h
    simp
  | cons n t ih =>
    cases hid : n.id with
    | none => simp [traverseGo, hid] at h
    | some nid =>
      simp only [traverseGo, hid] at h
      rw [ih _ h]
      simp only [List.map_cons, List.sum_cons]
      ring

/-- C8: Confidence cap: `MiniSKGExecutor.traverse` returns a confidence score equal to the
clamp to [0,1] of the seed's declared baseline (default 0.5) plus the sum
of the per-node confidence deltas of the executed (first ≤5) nodes; the
score is always in [0,1]; and the result is independent of the executor's
prior mutable state (memoryless). -/
theorem C8_confidence_cap (seed : Seed) (context : String) (st1 st2 : ExecState) :
    MiniSKGExecutor.traverse seed context st1 = MiniSKGExecutor.traverse seed context st2 ∧
    ∀ st' r, MiniSKGExecutor.traverse seed context st1 = some (st', r) →
      r.confidence_score =
        max 0 (min 1 (seed.initial_confidence.getD 0.5 + sumDeltas seed context)) ∧
      0 ≤ r.confidence_score ∧ r.confidence_score ≤ 1 := by
  refine ⟨rfl, ?_⟩
  intro st' r h
  unfold MiniSKGExecutor.traverse at h
  cases hgo : traverseGo context (seed.entries.take 5) ExecState.init with
  | none => rw [hgo] at h; cases h
  | some stg =>
    rw [hgo] at h
    injection h with h2
    have hpair := Prod.mk.injEq .. ▸ h2
    have hst : stg = st' := congrArg Prod.fst h2
    have hr := congrArg Prod.snd h2
    simp only at hr
    subst hr
    have hacc := traverseGo_accum context _ _ _ hgo
    simp only [ExecState.init, zero_add] at hacc
    refine ⟨?_, le_max_left _ _, max_le (by norm_num) (min_le_left _ _)⟩
    simp only [sumDeltas, ← hacc]

theorem C8_witness :
    MiniSKGExecutor.traverse (⟨none, [⟨some "n1", none, none, none, none⟩]⟩ : Seed) "x" ⟨3, [], [], 7⟩ =
      MiniSKGExecutor.traverse (⟨none, [⟨some "n1", none, none, none, none⟩]⟩ : Seed) "x" ExecState.init ∧
    (0 : ℚ) ≤ ((MiniSKGExecutor.traverse (⟨none, [⟨some "n1", none, none, none, none⟩]⟩ : Seed) "x"
        ExecState.init).getD (ExecState.init, ⟨0, [], []⟩)).2.confidence_score ∧
    ((MiniSKGExecutor.traverse (⟨none, [⟨some "n1", none, none, none, none⟩]⟩ : Seed) "x"
        ExecState.init).getD (ExecState.init, ⟨0, [], []⟩)).2.confidence_score ≤ 1 := by
  obtain ⟨h1, h2⟩ :=
    C8_confidence_cap ⟨none, [⟨some "n1", none, none, none, none⟩]⟩ "x" ⟨3, [], [], 7⟩
      ExecState.init
  obtain ⟨_, hb1, hb2⟩ := h2 _ _ rfl
  exact ⟨h1, hb1, hb2⟩

theorem dget_dset_self {α : Type} (m : List (String × α)) (k : String) (v : α) :
    dget (dset m k v) k = some v := by
  induction m with
  | nil => simp [dget, dset]
  | cons p t ih =>
    by_cases hk : p.1 = k
    · simp [dget, dset, hk]
    · simp [dget, dset, hk, ih]

theorem dget_dset_other {α : Type} (m : List (String × α)) (k k' : String) (v : α)
    (h : k' ≠ k) : dget (dset m k v) k' = dget m k' := by
  have hk : ¬ k = k' := fun he => h he.symm
  induction m with
  | nil => simp [dget, dset, hk]
  | cons p t ih =>
    rcases p with ⟨pk, pv⟩
    by_cases hpk : pk = k
    · subst hpk
      simp [dget, dset, hk]
    · simp [dget, dset, hpk, ih]

theorem abs_clamp_le (x : ℚ) : |max (-0.25) (min 0.25 x)| ≤ 0.25 :=
  abs_le.mpr ⟨le_max_left _ _, max_le (by norm_num) (min_le_left _ _)⟩

theorem emit_shadow_counts (p : ShadowPropagator) (o l t : String) (r : MiniSKGResult)
    (tc : TriggerConditions) (now : ℤ) :
    (emit_shadow p o l t r tc now).1.node_adjustment_counts = p.node_adjustment_counts ∧
    (emit_shadow p o l t r tc now).1.node_cumulative_deltas = p.node_cumulative_deltas := by
  cases h : evaluate_triggers r tc <;> simp [emit_shadow, h]

/-- What one `apply_shadows_to_metrics` call does to the two bookkeeping
maps: either it leaves both unchanged, or it bumps the call's key by some
`n` applied shadows and a clamped delta `d` with `|d| ≤ 0.25` (and `d = 0`
when nothing was applied). -/
theorem apply_state_cases (p : ShadowPropagator) (t l : String) (base : Metrics) (now : ℤ) :
    ((apply_shadows_to_metrics p t l base now).1.node_adjustment_counts =
        p.node_adjustment_counts ∧
     (apply_shadows_to_metrics p t l base now).1.node_cumulative_deltas =
        p.node_cumulative_deltas) ∨
    (∃ n : ℕ, ∃ d : ℚ, |d| ≤ 0.25 ∧ (n = 0 → d = 0) ∧
      ¬ 3 ≤ (dget p.node_adjustment_counts (t ++ "_" ++ l)).getD 0 ∧
      (apply_shadows_to_metrics p t l base now).1.node_adjustment_counts =
        dset p.node_adjustment_counts (t ++ "_" ++ l)
          ((dget p.node_adjustment_counts (t ++ "_" ++ l)).getD 0 + n) ∧
      (apply_shadows_to_metrics p t l base now).1.node_cumulative_deltas =
        dset p.node_cumulative_deltas (t ++ "_" ++ l)
          ((dget p.node_cumulative_deltas (t ++ "_" ++ l)).getD 0 + d)) := by
  rcases hsh : dget p.active_shadows (t ++ "_" ++ l) with _ | shadows
  · left
    constructor <;> simp [apply_shadows_to_metrics, hsh]
  · by_cases hac : (List.filter (fun s => !(s.expired now)) shadows).isEmpty = true
    · left
      constructor <;> simp [apply_shadows_to_metrics, hsh, hac]
    · by_cases hcnt : 3 ≤ (dget p.node_adjustment_counts (t ++ "_" ++ l)).getD 0
      · left
        constructor <;> simp [apply_shadows_to_metrics, hsh, hac, hcnt]
      · right
        refine ⟨(List.filter (fun s => s.skg_origin != t)
            (List.filter (fun s => !(s.expired now)) shadows)).length,
          max (-0.25) (min 0.25 ((List.map (fun s => s.get_adjustment_delta)
            (List.filter (fun s => s.skg_origin != t)
              (List.filter (fun s => !(s.expired now)) shadows))).sum)),
          abs_clamp_le _, ?_, hcnt, ?_, ?_⟩
        · intro hn
          rw [List.length_eq_zero.mp hn]
          norm_num
        · simp [apply_shadows_to_metrics, hsh, hac, hcnt]
        · simp [apply_shadows_to_metrics, hsh, hac, hcnt]

/-- C9: Rate-limit no-op: once the adjustment counter of a key has reached
3, `apply_shadows_to_metrics` for that key returns the base metrics
unchanged (and leaves both bookkeeping maps untouched); no error is
raised. -/
theorem C9_rate_limit_noop (p : ShadowPropagator) (target loc : String)
    (base : Metrics) (now : ℤ)
    (h : 3 ≤ (dget p.node_adjustment_counts (target ++ "_" ++ loc)).getD 0) :
    (apply_shadows_to_metrics p target loc base now).2 = base ∧
    (apply_shadows_to_metrics p target loc base now).1.node_adjustment_counts =
      p.node_adjustment_counts ∧
    (apply_shadows_to_metrics p target loc base now).1.node_cumulative_deltas =
      p.node_cumulative_deltas := by
  rcases hsh : dget p.active_shadows (target ++ "_" ++ loc) with _ | shadows
  · refine ⟨?_, ?_, ?_⟩ <;> simp [apply_shadows_to_metrics, hsh]
  · by_cases hac : (List.filter (fun s => !(s.expired now)) shadows).isEmpty = true
    · refine ⟨?_, ?_, ?_⟩ <;> simp [apply_shadows_to_metrics, hsh, hac]
    · refine ⟨?_, ?_, ?_⟩ <;> simp [apply_shadows_to_metrics, hsh, hac, h]

theorem C9_witness :
    (3 : ℕ) ≤ (dget (⟨none, [], [("T_loc", 3)], []⟩ : ShadowPropagator).node_adjustment_counts
      ("T" ++ "_" ++ "loc")).getD 0 ∧
    (apply_shadows_to_metrics ⟨none, [], [("T_loc", 3)], []⟩ "T" "loc"
      ⟨some 0.5, some 0.5, some 0.5⟩ 0).2 = ⟨some 0.5, some 0.5, some 0.5⟩ :=
  ⟨by simp [dget], (C9_rate_limit_noop ⟨none, [], [("T_loc", 3)], []⟩ "T" "loc"
    ⟨some 0.5, some 0.5, some 0.5⟩ 0 (by simp [dget])).1⟩

/-- C1 (amended): per key, every state-updating `apply` call happens only
while the stored adjustment count is < 3 and moves the cumulative delta by
at most 0.25 in absolute value; consequently, in every reachable session
state, the cumulative applied delta at a key is bounded by 0.25 times that
key's stored adjustment count.  (The count itself can exceed 3, and the
cumulative delta can leave [-0.25, 0.25]: see the counterexample.) -/
theorem C1_cumulative_bound_amended (p : ShadowPropagator) (h : PropReachable p) :
    ∀ k, |(dget p.node_cumulative_deltas k).getD 0| ≤
      (0.25 : ℚ) * ((dget p.node_adjustment_counts k).getD 0 : ℚ) := by
  induction h with
  | init =>
    intro k
    simp [ShadowPropagator.init, dget]
  | @step p q hr hstep ih =>
    cases hstep with
    | emitStep o l t r tc now =>
      intro k
      rw [(emit_shadow_counts p o l t r tc now).1, (emit_shadow_counts p o l t r tc now).2]
      exact ih k
    | applyStep t l base now =>
      rcases apply_state_cases p t l base now with ⟨h1, h2⟩ | ⟨n, d, hd, hn0, _, h1, h2⟩
      · intro k
        rw [h1, h2]
        exact ih k
      · intro k
        by_cases hk : k = t ++ "_" ++ l
        · subst hk
          rw [h1, h2, dget_dset_self, dget_dset_self]
          simp only [Option.getD_some]
          rcases Nat.eq_zero_or_pos n with hz | hpos
          · subst hz
            rw [hn0 rfl]
            simpa using ih (t ++ "_" ++ l)
          · have hih := ih (t ++ "_" ++ l)
            have habs := abs_add ((dget p.node_cumulative_deltas (t ++ "_" ++ l)).getD 0) d
            have hn1 : (1 : ℚ) ≤ (n : ℚ) := by exact_mod_cast hpos
            push_cast
            push_cast at hih
            nlinarith [abs_nonneg ((dget p.node_cumulative_deltas (t ++ "_" ++ l)).getD 0)]
        · rw [h1, h2, dget_dset_other _ _ _ _ hk, dget_dset_other _ _ _ _ hk]
          exact ih k

theorem C1_witness :
    PropReachable ShadowPropagator.init ∧
    |(dget ShadowPropagator.init.node_cumulative_deltas "T_loc").getD 0| ≤
      (0.25 : ℚ) * ((dget ShadowPropagator.init.node_adjustment_counts "T_loc").getD 0 : ℚ) :=
  ⟨PropReachable.init, C1_cumulative_bound_amended _ PropReachable.init "T_loc"⟩


/-- A mini-result that fires the CONFIDENCE_DELTA trigger at the default
thresholds: confidence 1, no contradiction flags, no rule results. -/
def cxResult : MiniSKGResult := ⟨1, [], []⟩

def cxTC : TriggerConditions := ⟨none, none, none⟩

def cxMetrics : Metrics := ⟨some 0.5, some 0.5, some 0.5⟩

/-- The artifact `emit_shadow` builds from `cxResult` at time 0. -/
def cxShadow : ShadowArtifact :=
  ⟨"Aloc", "A", 0, "loc", "T", ShadowTrigger.CONFIDENCE_DELTA, 1, false, 0, "A", 0, 5000⟩

theorem cx_emit (a : Option String) (m : List (String × List ShadowArtifact))
    (c : List (String × ℕ)) (d : List (String × ℚ)) :
    emit_shadow ⟨a, m, c, d⟩ "A" "loc" "T" cxResult cxTC 0 =
      (⟨a, dset m "T_loc" ((dget m "T_loc").getD [] ++ [cxShadow]), c, d⟩, some cxShadow) := by
  norm_num [emit_shadow, evaluate_triggers, cxResult, cxTC, calculate_entropy_marker, cxShadow]
  simp

theorem cx_delta : cxShadow.get_adjustment_delta = 1/10 := by
  norm_num [ShadowArtifact.get_adjustment_delta, cxShadow]

theorem cx_unexpired : cxShadow.expired 0 = false := by
  norm_num [ShadowArtifact.expired, cxShadow]

theorem cx_not_self : (cxShadow.skg_origin != "T") = true := by
  simp [cxShadow]

/-- Counterexample session for C1: agent "A" emits two shadows targeting
"T" at location "loc", "T" applies; then two more shadows, and "T"
applies again (its stored count is still 2 < 3). -/
def cxP1 : ShadowPropagator :=
  (emit_shadow ShadowPropagator.init "A" "loc" "T" cxResult cxTC 0).1

def cxP2 : ShadowPropagator := (emit_shadow cxP1 "A" "loc" "T" cxResult cxTC 0).1

def cxP3 : ShadowPropagator := (apply_shadows_to_metrics cxP2 "T" "loc" cxMetrics 0).1

def cxP4 : ShadowPropagator := (emit_shadow cxP3 "A" "loc" "T" cxResult cxTC 0).1

def cxP5 : ShadowPropagator := (emit_shadow cxP4 "A" "loc" "T" cxResult cxTC 0).1

def cxP6 : ShadowPropagator := (apply_shadows_to_metrics cxP5 "T" "loc" cxMetrics 0).1

theorem cxP2_eq : cxP2 = ⟨none, [("T_loc", [cxShadow, cxShadow])], [], []⟩ := by
  have h1 : cxP1 = ⟨none, [("T_loc", [cxShadow])], [], []⟩ := by
    rw [cxP1, ShadowPropagator.init, cx_emit]
    simp [dget, dset]
  rw [cxP2, h1, cx_emit]
  simp [dget, dset]

theorem cxP3_eq :
    cxP3 = ⟨none, [("T_loc", [cxShadow, cxShadow])], [("T_loc", 2)], [("T_loc", 1/5)]⟩ := by
  rw [cxP3, cxP2_eq, cxMetrics]
  simp only [apply_shadows_to_metrics]
  simp [dget, dset, cx_unexpired, cx_not_self, cx_delta, adjMetric]
  norm_num [min_def, max_def]

theorem cxP5_eq :
    cxP5 = ⟨none, [("T_loc", [cxShadow, cxShadow, cxShadow, cxShadow])],
      [("T_loc", 2)], [("T_loc", 1/5)]⟩ := by
  have h4 : cxP4 = ⟨none, [("T_loc", [cxShadow, cxShadow, cxShadow])],
      [("T_loc", 2)], [("T_loc", 1/5)]⟩ := by
    rw [cxP4, cxP3_eq, cx_emit]
    simp [dget, dset]
  rw [cxP5, h4, cx_emit]
  simp [dget, dset]

theorem cxP6_eq :
    cxP6 = ⟨none, [("T_loc", [cxShadow, cxShadow, cxShadow, cxShadow])],
      [("T_loc", 6)], [("T_loc", 9/20)]⟩ := by
  rw [cxP6, cxP5_eq, cxMetrics]
  simp only [apply_shadows_to_metrics]
  simp [dget, dset, cx_unexpired, cx_not_self, cx_delta, adjMetric]
  norm_num [min_def, max_def]

/-- C1 counterexample: after this reachable sequence of two emit / apply
rounds in one session, the key "T_loc" stores an adjustment count of 6
(> 3) and a cumulative applied delta of 0.45 (outside [-0.25, 0.25]),
refuting the claimed per-key invariant. -/
theorem C1_counterexample :
    PropReachable cxP6 ∧
    (dget cxP6.node_adjustment_counts "T_loc").getD 0 = 6 ∧
    (dget cxP6.node_cumulative_deltas "T_loc").getD 0 = 0.45 ∧
    ¬ ((dget cxP6.node_adjustment_counts "T_loc").getD 0 ≤ 3) ∧
    ¬ (|(dget cxP6.node_cumulative_deltas "T_loc").getD 0| ≤ 0.25) := by
  have habs : |(9 : ℚ)/20| = 9/20 := abs_of_nonneg (by norm_num)
  refine ⟨?_, ?_, ?_, ?_, ?_⟩
  · have r1 : PropReachable cxP1 :=
      .step .init (.emitStep ShadowPropagator.init "A" "loc" "T" cxResult cxTC 0)
    have r2 : PropReachable cxP2 := .step r1 (.emitStep cxP1 "A" "loc" "T" cxResult cxTC 0)
    have r3 : PropReachable cxP3 := .step r2 (.applyStep cxP2 "T" "loc" cxMetrics 0)
    have r4 : PropReachable cxP4 := .step r3 (.emitStep cxP3 "A" "loc" "T" cxResult cxTC 0)
    have r5 : PropReachable cxP5 := .step r4 (.emitStep cxP4 "A" "loc" "T" cxResult cxTC 0)
    exact .step r5 (.applyStep cxP5 "T" "loc" cxMetrics 0)
  · rw [cxP6_eq]
    simp [dget]
  · rw [cxP6_eq]
    norm_num [dget]
  · rw [cxP6_eq]
    simp [dget]
  · rw [cxP6_eq]
    norm_num [dget, habs]

/-! ## Content signature (src/ecm_runtime.py, CVV.signature) -/

/-- Decimal digit character. -/
def digitChar (d : ℕ) : Char :=
  match d with
  | 0 => '0'
  | 1 => '1'
  | 2 => '2'
  | 3 => '3'
  | 4 => '4'
  | 5 => '5'
  | 6 => '6'
  | 7 => '7'
  | 8 => '8'
  | _ => '9'

/-- Decimal digits of `n` (most significant first), fuel-bounded. -/
def natDigitsAux : ℕ → ℕ → List Char → List Char
  | 0, _, acc => acc
  | fuel + 1, n, acc =>
    if n < 10 then digitChar n :: acc
    else natDigitsAux fuel (n / 10) (digitChar (n % 10) :: acc)

/-- Decimal rendering of a natural number (Python `str`). -/
def natRepr (n : ℕ) : String := String.mk (natDigitsAux (n + 1) n [])

/-- Zero-padded 4-digit rendering of the fractional part (`n < 10000`). -/
def padFrac (n : ℕ) : String :=
  String.mk (List.replicate (4 - (natRepr n).length) '0') ++ natRepr n

/-- Round to the nearest integer, ties to even (the rounding Python's
fixed-point formatting applies). -/
def roundHalfEven (x : ℚ) : ℤ :=
  let f := ⌊x⌋
  let r := x - f
  if r < 1/2 then f
  else if 1/2 < r then f + 1
  else if f % 2 = 0 then f else f + 1

/-- Python `f"{x:.4f}"` on the model rationals: the value rounded to four
decimal places and rendered with exactly four fractional digits. -/
def fmt4 (x : ℚ) : String :=
  let n := roundHalfEven (x * 10000)
  let s := n.natAbs
  (if n < 0 then "-" else "") ++ natRepr (s / 10000) ++ "." ++ padFrac (s % 10000)

/-- Python `f"{b}"` on a bool. -/
def boolRepr : Bool → String
  | true => "True"
  | false => "False"

/-- The canonical payload text of `CVV.signature`:
`f"{confidence:.4f}|{contradiction:.4f}|{entropy:.4f}|{coverage:.4f}|{falsified}|{skg_id}"`
(string concatenation is associative, so the right-nested grouping is
immaterial). -/
def CVV.payload (c : CVV) : String :=
  fmt4 c.confidence ++ "|" ++ (fmt4 c.contradiction ++ "|" ++ (fmt4 c.entropy ++ "|" ++
    (fmt4 c.coverage ++ "|" ++ (boolRepr c.falsified ++ "|" ++ c.skg_id))))

/-- Model of `CVV.signature`: the code returns
`hashlib.sha3_256(payload.encode("utf-8")).hexdigest()`.  The digest is a
fixed deterministic function of the payload, so signature equality
coincides with payload equality up to SHA3-256 collisions; the signature
is modelled by its pre-image, the canonical payload text. -/
def CVV.signature (c : CVV) : String := c.payload

/-- No character of `s` is the field separator. -/
def strNoBar (s : String) : Prop := ∀ ch ∈ s.data, ch ≠ '|'

theorem digitChar_ne_bar (d : ℕ) : digitChar d ≠ '|' := by
  unfold digitChar
  split <;> decide

theorem natDigitsAux_chars (fuel : ℕ) : ∀ (n : ℕ) (acc : List Char),
    ∀ ch ∈ natDigitsAux fuel n acc, ch ∈ acc ∨ ∃ d, ch = digitChar d := by
  induction fuel with
  | zero =>
    intro n acc ch hch
    exact Or.inl hch
  | succ fuel ih =>
    intro n acc ch hch
    simp only [natDigitsAux] at hch
    by_cases h : n < 10
    · rw [if_pos h] at hch
      rcases List.mem_cons.mp hch with h1 | h1
      · exact Or.inr ⟨n, h1⟩
      · exact Or.inl h1
    · rw [if_neg h] at hch
      rcases ih (n / 10) _ ch hch with h1 | h1
      · rcases List.mem_cons.mp h1 with h2 | h2
        · exact Or.inr ⟨n % 10, h2⟩
        · exact Or.inl h2
      · exact Or.inr h1

theorem natRepr_noBar (n : ℕ) : strNoBar (natRepr n) := by
  intro ch hch
  rcases natDigitsAux_chars (n + 1) n [] ch (by simpa [natRepr] using hch) with h | ⟨d, rfl⟩
  · cases h
  · exact digitChar_ne_bar d

theorem data_append (s t : String) : (s ++ t).data = s.data ++ t.data := rfl

theorem strNoBar_append (s t : String) (hs : strNoBar s) (ht : strNoBar t) :
    strNoBar (s ++ t) := by
  intro ch hch
  rcases List.mem_append.mp (by simpa [data_append] using hch) with h | h
  · exact hs ch h
  · exact ht ch h

theorem padFrac_noBar (n : ℕ) : strNoBar (padFrac n) := by
  refine strNoBar_append _ _ ?_ (natRepr_noBar n)
  intro ch hch
  have : ch = '0' := List.eq_of_mem_replicate (by simpa using hch)
  simp [this]

theorem fmt4_noBar (x : ℚ) : strNoBar (fmt4 x) := by
  unfold fmt4
  refine strNoBar_append _ _ (strNoBar_append _ _ (strNoBar_append _ _ ?_ (natRepr_noBar _)) ?_)
    (padFrac_noBar _)
  · split <;> intro ch hch <;> simp_all [data_append]
  · intro ch hch
    simp only [show ("." : String).data = ['.'] from rfl, List.mem_singleton] at hch
    simp [hch]

theorem boolRepr_noBar (b : Bool) : strNoBar (boolRepr b) := by
  unfold strNoBar boolRepr
  cases b <;> decide

theorem boolRepr_inj (b1 b2 : Bool) : boolRepr b1 = boolRepr b2 ↔ b1 = b2 := by
  cases b1 <;> cases b2 <;> simp [boolRepr]

theorem bar_split_list (a1 : List Char) : ∀ (a2 r1 r2 : List Char),
    (∀ c ∈ a1, c ≠ '|') → (∀ c ∈ a2, c ≠ '|') →
    a1 ++ '|' :: r1 = a2 ++ '|' :: r2 → a1 = a2 ∧ r1 = r2 := by
  induction a1 with
  | nil =>
    intro a2 r1 r2 _ h2 h
    cases a2 with
    | nil => simpa using h
    | cons b t =>
      simp only [List.nil_append, List.cons_append, List.cons.injEq] at h
      exact absurd h.1.symm (h2 b (by simp))
  | cons a t ih =>
    intro a2 r1 r2 h1 h2 h
    cases a2 with
    | nil =>
      simp only [List.nil_append, List.cons_append, List.cons.injEq] at h
      exact absurd h.1 (h1 a (by simp))
    | cons b t2 =>
      simp only [List.cons_append, List.cons.injEq] at h
      obtain ⟨hab, ht⟩ := h
      obtain ⟨he, hr⟩ := ih t2 r1 r2 (fun c hc => h1 c (List.mem_cons_of_mem _ hc))
        (fun c hc => h2 c (List.mem_cons_of_mem _ hc)) ht
      exact ⟨by rw [hab, he], hr⟩

theorem str_bar_split (a1 a2 r1 r2 : String) (h1 : strNoBar a1) (h2 : strNoBar a2) :
    a1 ++ "|" ++ r1 = a2 ++ "|" ++ r2 ↔ (a1 = a2 ∧ r1 = r2) := by
  constructor
  · intro h
    have hd := congrArg String.data h
    simp only [data_append, show ("|" : String).data = ['|'] from rfl, List.append_assoc,
      List.singleton_append] at hd
    obtain ⟨ha, hr⟩ := bar_split_list a1.data a2.data r1.data r2.data h1 h2 hd
    exact ⟨String.ext ha, String.ext hr⟩
  · rintro ⟨rfl, rfl⟩
    rfl

/-- C3 (amended): the signature is a fixed deterministic function of the
canonical payload text, so equal fields always give equal signatures; two
records have equal payloads (hence equal signatures) exactly when the
4-decimal canonical renderings of the four scalars, the falsified flag,
and the agent id all agree.  In particular a change to one field changes
the signature only when it changes that field's 4-decimal rendering. -/
theorem C3_signature_characterization (c1 c2 : CVV) :
    CVV.signature c1 = CVV.signature c2 ↔
      (fmt4 c1.confidence = fmt4 c2.confidence ∧
       fmt4 c1.contradiction = fmt4 c2.contradiction ∧
       fmt4 c1.entropy = fmt4 c2.entropy ∧
       fmt4 c1.coverage = fmt4 c2.coverage ∧
       c1.falsified = c2.falsified ∧
       c1.skg_id = c2.skg_id) := by
  unfold CVV.signature CVV.payload
  rw [str_bar_split _ _ _ _ (fmt4_noBar _) (fmt4_noBar _),
    str_bar_split _ _ _ _ (fmt4_noBar _) (fmt4_noBar _),
    str_bar_split _ _ _ _ (fmt4_noBar _) (fmt4_noBar _),
    str_bar_split _ _ _ _ (fmt4_noBar _) (fmt4_noBar _),
    str_bar_split _ _ _ _ (boolRepr_noBar _) (boolRepr_noBar _),
    boolRepr_inj]

theorem cx_fmt1 : fmt4 (12341/100000) = "0.1234" := by
  simp only [fmt4]
  rw [show roundHalfEven ((12341/100000 : ℚ) * 10000) = 1234 from by norm_num [roundHalfEven]]
  decide

theorem cx_fmt2 : fmt4 (12342/100000) = "0.1234" := by
  simp only [fmt4]
  rw [show roundHalfEven ((12342/100000 : ℚ) * 10000) = 1234 from by norm_num [roundHalfEven]]
  decide

/-- C3 counterexample: two validated records that differ in confidence
(0.12341 vs 0.12342) but have the same 4-decimal canonical payload, hence
the same signature: a field change does NOT always change the signature. -/
theorem C3_counterexample :
    (⟨12341/100000, 0, 0, 1, false, "a"⟩ : CVV).confidence ≠
      (⟨12342/100000, 0, 0, 1, false, "a"⟩ : CVV).confidence ∧
    (⟨12341/100000, 0, 0, 1, false, "a"⟩ : CVV).valid ∧
    (⟨12342/100000, 0, 0, 1, false, "a"⟩ : CVV).valid ∧
    CVV.signature ⟨12341/100000, 0, 0, 1, false, "a"⟩ =
      CVV.signature ⟨12342/100000, 0, 0, 1, false, "a"⟩ := by
  refine ⟨by norm_num, by norm_num [CVV.valid], by norm_num [CVV.valid], ?_⟩
  simp [CVV.signature, CVV.payload, cx_fmt1, cx_fmt2]
